import Mathlib

set_option linter.unusedVariables false

/- Shallow embedding of the lib.reviews form helpers:
   src/routes/helpers/forms.js and src/routes/handlers/form-handler.js.

   External collaborators (the escape-html library, the markdown renderer,
   the url utilities, the i18n translation function and the configuration
   object) are uninterpreted parameters gathered in an environment record.
   JavaScript objects whose keys are built dynamically are modelled as
   association lists with in-place update, and thrown exceptions as
   values of Except. -/

/-- JavaScript truthiness of a string-valued form field: present and nonempty. -/
def truthy : Option String → Bool
  | some s => s != ""
  | none => false

/-- JavaScript object update: overwrite the value at an existing key in
place, otherwise append the binding at the end (insertion order). -/
def objSet {β : Type} : List (String × β) → String → β → List (String × β)
  | [], k, v => [(k, v)]
  | p :: rest, k, v => if p.1 = k then (k, v) :: rest else p :: objSet rest k v

/-- The canonical decimal reading of a string: all digits, no leading
zero except for the string 0 itself. -/
def canonicalIndex (s : String) : Option Nat :=
  match s.data with
  | [] => none
  | c :: cs =>
    if (c :: cs).all Char.isDigit ∧ (c ≠ '0' ∨ cs = []) then
      some ((c :: cs).foldl (fun n ch => n * 10 + (ch.toNat - 48)) 0)
    else none

/-- JavaScript array access with a string subscript, as in
config.questionCaptcha.captchas[id]: the subscript hits an element exactly
when it is the canonical decimal form of an index in range. -/
def jsIndex {β : Type} (l : List β) : Option String → Option β
  | none => none
  | some s =>
    match canonicalIndex s with
    | some n => l.get? n
    | none => none

/-- JavaScript String.prototype.trim, over the character list. -/
def jsTrim (s : String) : String :=
  String.mk (((s.data.dropWhile Char.isWhitespace).reverse.dropWhile Char.isWhitespace).reverse)

/-- JavaScript String.prototype.toUpperCase, over the character list. -/
def jsToUpper (s : String) : String := String.mk (s.data.map Char.toUpper)

deriving instance DecidableEq for Except

/-- One entry of config.questionCaptcha.captchas. -/
structure Captcha where
  answerKey : String
deriving DecidableEq, Repr

/-- The external collaborators of forms.js: escape-html, util/md,
util/url-utils, the global encodeURI, the Number coercion, the i18n
translation function attached to the request, and the questionCaptcha
section of the configuration. All are uninterpreted. -/
structure Env where
  escapeHTML : String → String
  mdRender : String → String → String
  urlNormalize : String → String
  encodeURI : String → String
  jsNumber : String → Int
  translate : String → String
  captchaForms : List String
  captchas : List Captcha

/-- The request data that forms.js reads: the parsed body (an object,
modelled as an association list in key insertion order) and the locale. -/
structure Req where
  body : List (String × String)
  locale : String
deriving DecidableEq, Repr

/-- One entry of a form definition (a field of the schema), as read by parseSubmission. -/
structure FormField where
  name : String
  key : Option String := none
  type : Option String := none
  required : Bool := false
  skipValue : Bool := false
  flat : Bool := false
  htmlKey : Option String := none
deriving DecidableEq, Repr

/-- The options object of parseSubmission after its Object.assign defaults. -/
structure ParseOptions where
  formDef : List FormField := []
  formKey : Option String := none
  language : String := "undefined"
  skipRequiredCheck : List String := []
deriving DecidableEq, Repr

/-- The values parseSubmission stores into formValues, one constructor per
branch of its switch on the field type. -/
inductive FormValue where
  | num (n : Int)
  | url (s : String)
  | langMap (lang : String) (v : String)
  | mdNested (lang : String) (text : String) (html : String)
  | bool (b : Bool)
  | raw (v : Option String)
deriving DecidableEq, Repr

/-- The effective object key of a field: field.key when truthy, else field.name. -/
def effKey (f : FormField) : String :=
  match f.key with
  | some s => if s = "" then f.name else s
  | none => f.name

/-- The key used for the rendered half of a flat markdown field
(an absent htmlKey stringifies to the object key undefined). -/
def htmlKeyEff (f : FormField) : String := f.htmlKey.getD "undefined"

/-- All object keys a field can write into formValues. -/
def fieldKeys (f : FormField) : List String :=
  if f.type == some "markdown" && f.flat then [effKey f, htmlKeyEff f]
  else [effKey f]

/-- Whether config.questionCaptcha.forms[formKey] is truthy. -/
def captchaEnabled (env : Env) (opts : ParseOptions) : Bool :=
  match opts.formKey with
  | some k => env.captchaForms.contains k
  | none => false

/-- The implicit CSRF-token field parseSubmission always appends. -/
def csrfField : FormField := { name := "_csrf", required := true, skipValue := true }

/-- The implicit captcha id field appended when CAPTCHA is enabled. -/
def captchaIdField : FormField := { name := "captcha-id", required := true }

/-- The implicit captcha answer field appended when CAPTCHA is enabled. -/
def captchaAnswerField : FormField := { name := "captcha-answer", required := true }

/-- The internal schema parseSubmission iterates over: a copy of the
caller formDef with the implicit fields pushed onto the copy. -/
def effectiveFormDef (env : Env) (opts : ParseOptions) : List FormField :=
  let formDef := [] ++ opts.formDef
  let formDef := formDef ++ [csrfField]
  if captchaEnabled env opts then formDef ++ [captchaIdField, captchaAnswerField]
  else formDef

/-- forms.processCaptchaAnswer: returns its boolean verdict together with
the flash messages it queues on the request. -/
def processCaptchaAnswer (env : Env) (req : Req) : Bool × List (String × String) :=
  if !(truthy (req.body.lookup "captcha-answer")) then (false, [])
  else
    match jsIndex env.captchas (req.body.lookup "captcha-id") with
    | none => (false, [("pageErrors", env.translate "unknown captcha")])
    | some captcha =>
      if jsToUpper (jsTrim ((req.body.lookup "captcha-answer").getD "")) != jsToUpper (env.translate captcha.answerKey) then
        (false, [("pageErrors", env.translate "incorrect captcha answer")])
      else (true, [])

/-- The mutable state of the parseSubmission field loop. -/
structure ParseState where
  hasRequiredFields : Bool
  formValues : List (String × FormValue)
  flashes : List (String × String)
  processedKeys : List String
deriving DecidableEq, Repr

/-- The error message of reading trim on an absent body value. -/
def trimOfUndefined : String := "TypeError: cannot read trim of undefined"

/-- One iteration of the parseSubmission field loop, faithful to the
source: the required check runs unless the field is exempted, skipValue
and exempted fields produce no value, and the switch on field.type
dereferences the body value (throwing on an absent one for the four
string-processing types). -/
def processField (env : Env) (req : Req) (opts : ParseOptions)
    (st : ParseState) (f : FormField) : Except String ParseState :=
  if (!(opts.skipRequiredCheck.contains f.name)) && (!(truthy (req.body.lookup f.name))) && f.required then
    .ok { st with
          processedKeys := st.processedKeys.erase f.name
          hasRequiredFields := false
          flashes := st.flashes ++ [("pageErrors", env.translate ("need " ++ f.name))] }
  else if f.skipValue || opts.skipRequiredCheck.contains f.name then
    .ok { st with processedKeys := st.processedKeys.erase f.name }
  else
    match f.type with
    | some "number" =>
      match req.body.lookup f.name with
      | none => .error trimOfUndefined
      | some s =>
        .ok { st with processedKeys := st.processedKeys.erase f.name, formValues := objSet st.formValues (effKey f) (FormValue.num (env.jsNumber (jsTrim s))) }
    | some "url" =>
      match req.body.lookup f.name with
      | none => .error trimOfUndefined
      | some s =>
        .ok { st with processedKeys := st.processedKeys.erase f.name, formValues := objSet st.formValues (effKey f) (FormValue.url (env.encodeURI (env.urlNormalize (jsTrim s)))) }
    | some "text" =>
      match req.body.lookup f.name with
      | none => .error trimOfUndefined
      | some s =>
        .ok { st with processedKeys := st.processedKeys.erase f.name, formValues := objSet st.formValues (effKey f) (FormValue.langMap opts.language (env.escapeHTML (jsTrim s))) }
    | some "markdown" =>
      match req.body.lookup f.name with
      | none => .error trimOfUndefined
      | some s =>
        if !f.flat then
          .ok { st with processedKeys := st.processedKeys.erase f.name, formValues := objSet st.formValues (effKey f) (FormValue.mdNested opts.language (env.escapeHTML (jsTrim s)) (env.mdRender (jsTrim s) req.locale)) }
        else
          .ok { st with processedKeys := st.processedKeys.erase f.name, formValues := objSet (objSet st.formValues (effKey f) (FormValue.langMap opts.language (env.escapeHTML (jsTrim s)))) (htmlKeyEff f) (FormValue.langMap opts.language (env.mdRender (jsTrim s) req.locale)) }
    | some "boolean" =>
      .ok { st with processedKeys := st.processedKeys.erase f.name, formValues := objSet st.formValues (effKey f) (FormValue.bool (truthy (req.body.lookup f.name))) }
    | _ =>
      .ok { st with processedKeys := st.processedKeys.erase f.name, formValues := objSet st.formValues (effKey f) (FormValue.raw (req.body.lookup f.name)) }

/-- The parseSubmission field loop: runs processField over the schema in
order, propagating a thrown exception. -/
def runFields (env : Env) (req : Req) (opts : ParseOptions) :
    ParseState → List FormField → Except String ParseState
  | st, [] => .ok st
  | st, f :: rest =>
    match processField env req opts st f with
    | .error e => .error e
    | .ok st2 => runFields env req opts st2 rest

/-- The record parseSubmission returns. -/
structure SubmissionResult where
  hasRequiredFields : Bool
  hasUnknownFields : Bool
  hasCorrectCaptcha : Option Bool
  formValues : List (String × FormValue)
deriving DecidableEq, Repr

/-- The loop state as parseSubmission sets it up before the field loop:
the captcha verdict flashes are queued first when CAPTCHA is enabled, and
processedKeys starts as Object.keys of the body. -/
def initState (env : Env) (req : Req) (opts : ParseOptions) : ParseState :=
  { hasRequiredFields := true
    formValues := []
    flashes := if captchaEnabled env opts then (processCaptchaAnswer env req).2 else []
    processedKeys := req.body.map Prod.fst }

/-- forms.parseSubmission: returns the submission result together with
the flash messages queued on the request, or the thrown exception. -/
def parseSubmission (env : Env) (req : Req) (opts : ParseOptions) :
    Except String (SubmissionResult × List (String × String)) :=
  match runFields env req opts (initState env req opts) (effectiveFormDef env opts) with
  | .error e => .error e
  | .ok st =>
    .ok ({ hasRequiredFields := st.hasRequiredFields
           hasUnknownFields := !st.processedKeys.isEmpty
           hasCorrectCaptcha := if captchaEnabled env opts then some (processCaptchaAnswer env req).1 else none
           formValues := st.formValues },
         if st.processedKeys.isEmpty then st.flashes
         else st.flashes ++ [("pageErrors", env.translate "unexpected form data")])


/- Embedding of src/routes/handlers/form-handler.js. Verb handlers, the
data loader and the pre-flight checks are abstract request-scoped functions;
the model records their invocations and outcomes as a trace of events, so
that dispatch order and non-invocation are provable. A pre-flight check is
represented by the boolean it returns, the data loader by the outcome its
promise settles with, and the resource-permission check by the predicate
it applies to the loaded resource. -/

/-- A loaded resource: the soft-delete flag the dispatcher inspects plus an
abstract payload distinguishing resources. -/
structure Resource where
  _revDeleted : Bool := false
  payload : String := ""
deriving DecidableEq, Repr

/-- A JavaScript Error as the dispatcher observes it: name and message. -/
structure JsError where
  name : String
  message : String
deriving DecidableEq, Repr

/-- How the loadData promise settles. -/
inductive LoadOutcome where
  | resolved (data : Resource)
  | rejected (e : JsError)
deriving Repr

/-- One action entry of the actions table built in the FormHandler
constructor. A verb handler slot holds a function or is undefined; the
pre-flight checks are listed by the boolean each returns. -/
structure ActionSpec where
  hasGET : Bool
  hasPOST : Bool
  preFlightChecks : List Bool
  hasLoadData : Bool
  resourcePermissionCheck : Option (Resource → Bool)
  titleKey : Option String

/-- A FormHandler instance at the time execute is called. -/
structure FormHandler where
  action : String
  method : String
  id : Option String
  documentNotFoundTemplate : String := "404"
  documentNotFoundTitleKey : String := "page not found title"
  createSpec : ActionSpec
  editSpec : ActionSpec
  deleteSpec : ActionSpec
  loadOutcome : LoadOutcome

/-- Observable events of one execute run, in order. -/
inductive ExecEvent where
  | checkRun (index : Nat) (result : Bool)
  | loaderRun
  | permCheckRun (result : Bool)
  | verbHandlerRun (data : Option Resource)
  | setStatus (code : Nat)
  | renderTemplate (template : String) (titleKey : String) (id : Option String)
  | nextError (e : JsError)
deriving DecidableEq, Repr

/-- The actions table lookup: Object.keys of the table are exactly create,
edit and delete. -/
def getSpec (h : FormHandler) : Option ActionSpec :=
  if h.action = "create" then some h.createSpec
  else if h.action = "edit" then some h.editSpec
  else if h.action = "delete" then some h.deleteSpec
  else none

/-- Whether typeof actions[action][method] is a function. The own
properties of an action entry are GET, POST, preFlightChecks, titleKey and,
for edit and delete, loadData and resourcePermissionCheck; of these only
the verb handlers, the loader and the permission check hold functions. -/
def methodEntryIsFunction (spec : ActionSpec) (method : String) : Bool :=
  if method = "GET" then spec.hasGET
  else if method = "POST" then spec.hasPOST
  else if method = "loadData" then spec.hasLoadData
  else if method = "resourcePermissionCheck" then spec.resourcePermissionCheck.isSome
  else false

/-- The catch clause of the load pipeline: a DocumentNotFoundError or the
deleted sentinel renders the 404 template, anything else is forwarded to
the next continuation. -/
def catchPhase (h : FormHandler) (e : JsError) : List ExecEvent :=
  if e.name = "DocumentNotFoundError" ∨ e.message = "deleted" then
    [ExecEvent.setStatus 404,
     ExecEvent.renderTemplate h.documentNotFoundTemplate h.documentNotFoundTitleKey h.id]
  else [ExecEvent.nextError e]

/-- The then clause of the load pipeline: throw the deleted sentinel on a
soft-deleted resource, then gate the verb handler on the optional
resource-permission check. -/
def loadPhase (h : FormHandler) (spec : ActionSpec) : List ExecEvent :=
  match h.loadOutcome with
  | LoadOutcome.rejected e => catchPhase h e
  | LoadOutcome.resolved data =>
    if data._revDeleted then catchPhase h { name := "Error", message := "deleted" }
    else
      match spec.resourcePermissionCheck with
      | none => [ExecEvent.verbHandlerRun (some data)]
      | some p =>
        if p data then [ExecEvent.permCheckRun true, ExecEvent.verbHandlerRun (some data)]
        else [ExecEvent.permCheckRun false]

/-- The per-check events of the pre-flight loop, one per check in order. -/
def checkEvents (spec : ActionSpec) : List ExecEvent :=
  spec.preFlightChecks.enum.map fun p => ExecEvent.checkRun p.1 p.2

/-- FormHandler.execute: the configuration guards throw, the pre-flight
loop always runs every check, a failed check suppresses everything after
the loop, and the load pipeline runs only when the action has a loader. -/
def execute (h : FormHandler) : Except JsError (List ExecEvent) :=
  match getSpec h with
  | none => .error { name := "Error", message := "Did not recognize form action: undefined" }
  | some spec =>
    if !(methodEntryIsFunction spec h.method) then
      .error { name := "Error", message := "No defined handler for this method." }
    else
      let mayProceed := spec.preFlightChecks.all (fun b => b)
      if !mayProceed then .ok (checkEvents spec)
      else if !spec.hasLoadData then
        .ok (checkEvents spec ++ [ExecEvent.verbHandlerRun none])
      else
        .ok (checkEvents spec ++ ExecEvent.loaderRun :: loadPhase h spec)

/- Definitions of the safety side condition for the field loop. -/

/-- The four field types whose processing dereferences trim on the body value. -/
def stringProcessed (f : FormField) : Bool :=
  f.type == some "number" || f.type == some "url" || f.type == some "text" || f.type == some "markdown"

/-- A field cannot make the loop throw: either it is not string-processed,
or it is skipped, exempted, required, or its body value is present. -/
def fieldSafe (req : Req) (opts : ParseOptions) (f : FormField) : Prop :=
  stringProcessed f = true → f.skipValue = false →
  opts.skipRequiredCheck.contains f.name = false → f.required = false →
  req.body.lookup f.name ≠ none

instance (req : Req) (opts : ParseOptions) (f : FormField) : Decidable (fieldSafe req opts f) := by
  unfold fieldSafe
  infer_instance

/- Concrete instances used to evaluate the development on closed inputs. -/

def envW : Env := { escapeHTML := fun s => "E" ++ s, mdRender := fun s _ => "R" ++ s, urlNormalize := fun s => s, encodeURI := fun s => s, jsNumber := fun _ => 0, translate := fun s => s, captchaForms := ["review"], captchas := [{ answerKey := "answer key" }] }

def reqCsrfOnly : Req := { body := [("_csrf", "t")], locale := "en" }

def reqEmpty : Req := { body := [], locale := "en" }

def reqMarkdown : Req := { body := [("_csrf", "t"), ("m", " hi ")], locale := "en" }

def reqCaptcha : Req := { body := [("_csrf", "t"), ("captcha-id", "0"), ("captcha-answer", "x")], locale := "en" }

def reqCaptchaRight : Req := { body := [("captcha-id", "0"), ("captcha-answer", " ANSWER KEY ")], locale := "en" }

def optsTextOnly : ParseOptions := { formDef := [{ name := "x", type := some "text" }] }

def optsExempt : ParseOptions := { formDef := [{ name := "a", required := true }], skipRequiredCheck := ["a"] }

def optsEmpty : ParseOptions := { formDef := [] }

def mField : FormField := { name := "m", type := some "markdown" }

def optsMarkdown : ParseOptions := { formDef := [mField], language := "en" }

def bField : FormField := { name := "b", type := some "boolean" }

def optsBoolean : ParseOptions := { formDef := [bField] }

def optsCaptcha : ParseOptions := { formDef := [], formKey := some "review" }

def specEditCex : ActionSpec :=
  { hasGET := true, hasPOST := true, preFlightChecks := [true],
    hasLoadData := true, resourcePermissionCheck := some (fun _ => true),
    titleKey := some "edit thing title" }

def handlerCex : FormHandler :=
  { action := "edit", method := "GET", id := some "42",
    createSpec := specEditCex, editSpec := specEditCex, deleteSpec := specEditCex,
    loadOutcome := LoadOutcome.resolved { _revDeleted := true, payload := "r" } }

def specFailingCheck : ActionSpec :=
  { hasGET := true, hasPOST := false, preFlightChecks := [true, false],
    hasLoadData := false, resourcePermissionCheck := none, titleKey := none }

def handlerFailingCheck : FormHandler :=
  { action := "create", method := "GET", id := none,
    createSpec := specFailingCheck, editSpec := specFailingCheck, deleteSpec := specFailingCheck,
    loadOutcome := LoadOutcome.rejected { name := "Error", message := "boom" } }

def handlerBadAction : FormHandler := { handlerCex with action := "destroy" }

def handlerBadMethod : FormHandler := { handlerCex with action := "create", method := "PUT" }


/- Helper lemmas about the association-list object update. -/

theorem lookup_objSet_self {β : Type} (m : List (String × β)) (k : String) (v : β) :
    (objSet m k v).lookup k = some v := by
  induction m with
  | nil => simp [objSet, List.lookup]
  | cons p rest ih =>
    obtain ⟨k1, v1⟩ := p
    by_cases h : k1 = k
    · simp [objSet, h, List.lookup]
    · have hbe : (k == k1) = false := beq_eq_false_iff_ne.mpr fun hh => h hh.symm
      simp [objSet, h, List.lookup, hbe, ih]

theorem lookup_objSet_ne {β : Type} (m : List (String × β)) (k q : String) (v : β)
    (hne : q ≠ k) : (objSet m k v).lookup q = m.lookup q := by
  have hqk : (q == k) = false := beq_eq_false_iff_ne.mpr hne
  induction m with
  | nil => simp [objSet, List.lookup, hqk]
  | cons p rest ih =>
    obtain ⟨k1, v1⟩ := p
    by_cases h : k1 = k
    · subst h
      simp [objSet, List.lookup, hqk]
    · simp only [objSet, h, if_false, List.lookup, ih]

theorem lookup_objSet_cases {β : Type} (m : List (String × β)) (k q : String) (v : β)
    (h : (objSet m k v).lookup q ≠ none) : q = k ∨ m.lookup q ≠ none := by
  by_cases hq : q = k
  · exact Or.inl hq
  · right
    rw [lookup_objSet_ne m k q v hq] at h
    exact h

/- Helper lemmas about one iteration of the parseSubmission field loop. -/

theorem effKey_mem_fieldKeys (f : FormField) : effKey f ∈ fieldKeys f := by
  unfold fieldKeys
  split <;> simp

theorem processField_lookup_preserve (env : Env) (req : Req) (opts : ParseOptions)
    (st : ParseState) (f : FormField) (st2 : ParseState) (q : String)
    (hstep : processField env req opts st f = Except.ok st2)
    (hq : q ∉ fieldKeys f) :
    st2.formValues.lookup q = st.formValues.lookup q := by
  have hqe : q ≠ effKey f := fun hh => hq (hh ▸ effKey_mem_fieldKeys f)
  unfold processField at hstep
  split at hstep
  · cases hstep; rfl
  · split at hstep
    · cases hstep; rfl
    · split at hstep
      case h_1 heq =>
        cases hbv : req.body.lookup f.name <;> rw [hbv] at hstep
        · cases hstep
        · cases hstep; simpa using lookup_objSet_ne _ _ _ _ hqe
      case h_2 heq =>
        cases hbv : req.body.lookup f.name <;> rw [hbv] at hstep
        · cases hstep
        · cases hstep; simpa using lookup_objSet_ne _ _ _ _ hqe
      case h_3 heq =>
        cases hbv : req.body.lookup f.name <;> rw [hbv] at hstep
        · cases hstep
        · cases hstep; simpa using lookup_objSet_ne _ _ _ _ hqe
      case h_4 heq =>
        cases hbv : req.body.lookup f.name
        · rw [hbv] at hstep
          cases hstep
        · rw [hbv] at hstep
          dsimp only at hstep
          split at hstep
          · cases hstep
            simpa using lookup_objSet_ne _ _ _ _ hqe
          · cases hstep
            have hfl : f.flat = true := by
              rename_i hnf
              simpa using hnf
            have hqh : q ≠ htmlKeyEff f := by
              intro hh
              apply hq
              simp [fieldKeys, heq, hfl, hh]
            dsimp only
            rw [lookup_objSet_ne _ _ _ _ hqh, lookup_objSet_ne _ _ _ _ hqe]
      case h_5 heq =>
        cases hstep; simpa using lookup_objSet_ne _ _ _ _ hqe
      case h_6 =>
        cases hstep; simpa using lookup_objSet_ne _ _ _ _ hqe

theorem processField_required_mono (env : Env) (req : Req) (opts : ParseOptions)
    (st : ParseState) (f : FormField) (st2 : ParseState)
    (hstep : processField env req opts st f = Except.ok st2)
    (hst : st.hasRequiredFields = false) :
    st2.hasRequiredFields = false := by
  unfold processField at hstep
  split at hstep
  · cases hstep; rfl
  · split at hstep
    · cases hstep; exact hst
    · split at hstep
      case h_1 heq =>
        cases hbv : req.body.lookup f.name
        · rw [hbv] at hstep; cases hstep
        · rw [hbv] at hstep; cases hstep; exact hst
      case h_2 heq =>
        cases hbv : req.body.lookup f.name
        · rw [hbv] at hstep; cases hstep
        · rw [hbv] at hstep; cases hstep; exact hst
      case h_3 heq =>
        cases hbv : req.body.lookup f.name
        · rw [hbv] at hstep; cases hstep
        · rw [hbv] at hstep; cases hstep; exact hst
      case h_4 heq =>
        cases hbv : req.body.lookup f.name
        · rw [hbv] at hstep; cases hstep
        · rw [hbv] at hstep
          dsimp only at hstep
          split at hstep
          · cases hstep; exact hst
          · cases hstep; exact hst
      case h_5 heq => cases hstep; exact hst
      case h_6 => cases hstep; exact hst

theorem processField_required_set (env : Env) (req : Req) (opts : ParseOptions)
    (st : ParseState) (f : FormField) (st2 : ParseState)
    (hc : opts.skipRequiredCheck.contains f.name = false)
    (ht : truthy (req.body.lookup f.name) = false)
    (hr : f.required = true)
    (hstep : processField env req opts st f = Except.ok st2) :
    st2.hasRequiredFields = false := by
  unfold processField at hstep
  rw [if_pos (by simp [ht, hr]; simpa using hc)] at hstep
  cases hstep; rfl

theorem processField_keys (env : Env) (req : Req) (opts : ParseOptions)
    (st : ParseState) (f : FormField) (st2 : ParseState) (q : String)
    (hstep : processField env req opts st f = Except.ok st2)
    (hlq : st2.formValues.lookup q ≠ none) :
    st.formValues.lookup q ≠ none ∨
      (f.skipValue = false ∧ opts.skipRequiredCheck.contains f.name = false ∧ q ∈ fieldKeys f) := by
  unfold processField at hstep
  split at hstep
  · cases hstep; exact Or.inl hlq
  · split at hstep
    · cases hstep; exact Or.inl hlq
    · rename_i hskip
      have hsv : f.skipValue = false ∧ opts.skipRequiredCheck.contains f.name = false := by
        simpa using hskip
      split at hstep
      case h_1 heq =>
        cases hbv : req.body.lookup f.name
        · rw [hbv] at hstep; cases hstep
        · rw [hbv] at hstep; cases hstep
          rcases lookup_objSet_cases _ _ _ _ hlq with h | h
          · exact Or.inr ⟨hsv.1, hsv.2, h ▸ effKey_mem_fieldKeys f⟩
          · exact Or.inl h
      case h_2 heq =>
        cases hbv : req.body.lookup f.name
        · rw [hbv] at hstep; cases hstep
        · rw [hbv] at hstep; cases hstep
          rcases lookup_objSet_cases _ _ _ _ hlq with h | h
          · exact Or.inr ⟨hsv.1, hsv.2, h ▸ effKey_mem_fieldKeys f⟩
          · exact Or.inl h
      case h_3 heq =>
        cases hbv : req.body.lookup f.name
        · rw [hbv] at hstep; cases hstep
        · rw [hbv] at hstep; cases hstep
          rcases lookup_objSet_cases _ _ _ _ hlq with h | h
          · exact Or.inr ⟨hsv.1, hsv.2, h ▸ effKey_mem_fieldKeys f⟩
          · exact Or.inl h
      case h_4 heq =>
        cases hbv : req.body.lookup f.name
        · rw [hbv] at hstep; cases hstep
        · rw [hbv] at hstep
          dsimp only at hstep
          split at hstep
          · cases hstep
            rcases lookup_objSet_cases _ _ _ _ hlq with h | h
            · exact Or.inr ⟨hsv.1, hsv.2, h ▸ effKey_mem_fieldKeys f⟩
            · exact Or.inl h
          · cases hstep
            have hfl : f.flat = true := by
              rename_i hnf
              simpa using hnf
            rcases lookup_objSet_cases _ _ _ _ hlq with h | h
            · exact Or.inr ⟨hsv.1, hsv.2, by simp [fieldKeys, heq, hfl, h]⟩
            · rcases lookup_objSet_cases _ _ _ _ h with h2 | h2
              · exact Or.inr ⟨hsv.1, hsv.2, h2 ▸ effKey_mem_fieldKeys f⟩
              · exact Or.inl h2
      case h_5 heq =>
        cases hstep
        rcases lookup_objSet_cases _ _ _ _ hlq with h | h
        · exact Or.inr ⟨hsv.1, hsv.2, h ▸ effKey_mem_fieldKeys f⟩
        · exact Or.inl h
      case h_6 =>
        cases hstep
        rcases lookup_objSet_cases _ _ _ _ hlq with h | h
        · exact Or.inr ⟨hsv.1, hsv.2, h ▸ effKey_mem_fieldKeys f⟩
        · exact Or.inl h

theorem processField_ok (env : Env) (req : Req) (opts : ParseOptions)
    (st : ParseState) (f : FormField)
    (hsafe : fieldSafe req opts f) :
    ∃ st2, processField env req opts st f = Except.ok st2 := by
  unfold processField
  split
  · exact ⟨_, rfl⟩
  · split
    · exact ⟨_, rfl⟩
    · rename_i hreq hskip
      have hsv : f.skipValue = false ∧ opts.skipRequiredCheck.contains f.name = false := by
        simpa using hskip
      have habs : req.body.lookup f.name = none → f.required = false := by
        intro hbv
        cases hreqb : f.required
        · rfl
        · exfalso
          apply hreq
          simp [hbv, truthy, hreqb]
          simpa using hsv.2
      split
      case h_1 heq =>
        cases hbv : req.body.lookup f.name
        · exact absurd hbv (hsafe (by simp [stringProcessed, heq]) hsv.1 hsv.2 (habs hbv))
        · exact ⟨_, rfl⟩
      case h_2 heq =>
        cases hbv : req.body.lookup f.name
        · exact absurd hbv (hsafe (by simp [stringProcessed, heq]) hsv.1 hsv.2 (habs hbv))
        · exact ⟨_, rfl⟩
      case h_3 heq =>
        cases hbv : req.body.lookup f.name
        · exact absurd hbv (hsafe (by simp [stringProcessed, heq]) hsv.1 hsv.2 (habs hbv))
        · exact ⟨_, rfl⟩
      case h_4 heq =>
        cases hbv : req.body.lookup f.name
        · exact absurd hbv (hsafe (by simp [stringProcessed, heq]) hsv.1 hsv.2 (habs hbv))
        · cases hfl : f.flat <;> exact ⟨_, rfl⟩
      case h_5 heq => exact ⟨_, rfl⟩
      case h_6 => exact ⟨_, rfl⟩

theorem processField_markdown_write (env : Env) (req : Req) (opts : ParseOptions)
    (st : ParseState) (f : FormField) (st2 : ParseState) (s : String)
    (heq : f.type = some "markdown") (hsv : f.skipValue = false)
    (hc : opts.skipRequiredCheck.contains f.name = false)
    (hbv : req.body.lookup f.name = some s) (hs : s ≠ "")
    (hstep : processField env req opts st f = Except.ok st2) :
    (f.flat = false → st2.formValues.lookup (effKey f) =
      some (FormValue.mdNested opts.language (env.escapeHTML (jsTrim s)) (env.mdRender (jsTrim s) req.locale)))
    ∧ (f.flat = true →
        st2.formValues.lookup (htmlKeyEff f) =
          some (FormValue.langMap opts.language (env.mdRender (jsTrim s) req.locale))
        ∧ (effKey f ≠ htmlKeyEff f →
            st2.formValues.lookup (effKey f) =
              some (FormValue.langMap opts.language (env.escapeHTML (jsTrim s))))) := by
  unfold processField at hstep
  rw [if_neg (by simp [hbv, truthy, hs])] at hstep
  rw [if_neg (by simp [hsv]; simpa using hc)] at hstep
  split at hstep
  case h_1 heq2 => rw [heq] at heq2; simp at heq2
  case h_2 heq2 => rw [heq] at heq2; simp at heq2
  case h_3 heq2 => rw [heq] at heq2; simp at heq2
  case h_4 heq2 =>
    rw [hbv] at hstep
    dsimp only at hstep
    split at hstep
    · rename_i hnf
      cases hstep
      have hfl : f.flat = false := by simpa using hnf
      constructor
      · intro
        exact lookup_objSet_self _ _ _
      · intro hcon
        rw [hfl] at hcon
        cases hcon
    · rename_i hnf
      cases hstep
      have hfl : f.flat = true := by simpa using hnf
      constructor
      · intro hcon
        rw [hfl] at hcon
        cases hcon
      · intro
        refine ⟨lookup_objSet_self _ _ _, fun hne => ?_⟩
        dsimp only
        rw [lookup_objSet_ne _ _ _ _ hne]
        exact lookup_objSet_self _ _ _
  case h_5 heq2 => rw [heq] at heq2; simp at heq2
  case h_6 => exact absurd heq (by assumption)

theorem processField_boolean_absent (env : Env) (req : Req) (opts : ParseOptions)
    (st : ParseState) (f : FormField) (st2 : ParseState)
    (heq : f.type = some "boolean") (hsv : f.skipValue = false)
    (hc : opts.skipRequiredCheck.contains f.name = false)
    (hr : f.required = false)
    (hbv : req.body.lookup f.name = none)
    (hstep : processField env req opts st f = Except.ok st2) :
    st2.formValues.lookup (effKey f) = some (FormValue.bool false) := by
  unfold processField at hstep
  rw [if_neg (by simp [hr])] at hstep
  rw [if_neg (by simp [hsv]; simpa using hc)] at hstep
  split at hstep
  case h_1 heq2 => rw [heq] at heq2; simp at heq2
  case h_2 heq2 => rw [heq] at heq2; simp at heq2
  case h_3 heq2 => rw [heq] at heq2; simp at heq2
  case h_4 heq2 => rw [heq] at heq2; simp at heq2
  case h_5 heq2 =>
    cases hstep
    simpa [hbv, truthy] using lookup_objSet_self st.formValues (effKey f) (FormValue.bool (truthy (req.body.lookup f.name)))
  case h_6 => exact absurd heq (by assumption)

/- Lemmas lifting the step lemmas over the whole field loop. -/

theorem runFields_append (env : Env) (req : Req) (opts : ParseOptions) (l1 l2 : List FormField) :
    ∀ (st st2 : ParseState), runFields env req opts st (l1 ++ l2) = Except.ok st2 →
      ∃ stm, runFields env req opts st l1 = Except.ok stm ∧
        runFields env req opts stm l2 = Except.ok st2 := by
  induction l1 with
  | nil => intro st st2 h; exact ⟨st, rfl, h⟩
  | cons f rest ih =>
    intro st st2 h
    rw [List.cons_append] at h
    unfold runFields at h
    cases hpf : processField env req opts st f with
    | error e => rw [hpf] at h; simp at h
    | ok stx =>
      rw [hpf] at h
      obtain ⟨stm, h1, h2⟩ := ih stx st2 h
      refine ⟨stm, ?_, h2⟩
      unfold runFields
      rw [hpf]
      exact h1

theorem runFields_preserve (env : Env) (req : Req) (opts : ParseOptions) (q : String) :
    ∀ (l : List FormField) (st st2 : ParseState),
      runFields env req opts st l = Except.ok st2 →
      (∀ f ∈ l, q ∉ fieldKeys f) →
      st2.formValues.lookup q = st.formValues.lookup q := by
  intro l
  induction l with
  | nil => intro st st2 h _; unfold runFields at h; cases h; rfl
  | cons f rest ih =>
    intro st st2 h hks
    unfold runFields at h
    cases hpf : processField env req opts st f with
    | error e => rw [hpf] at h; simp at h
    | ok stx =>
      rw [hpf] at h
      have h1 := processField_lookup_preserve env req opts st f stx q hpf (hks f (by simp))
      have h2 := ih stx st2 h (fun g hg => hks g (by simp [hg]))
      rw [h2, h1]

theorem runFields_required_mono (env : Env) (req : Req) (opts : ParseOptions) :
    ∀ (l : List FormField) (st st2 : ParseState),
      runFields env req opts st l = Except.ok st2 →
      st.hasRequiredFields = false → st2.hasRequiredFields = false := by
  intro l
  induction l with
  | nil => intro st st2 h hst; unfold runFields at h; cases h; exact hst
  | cons f rest ih =>
    intro st st2 h hst
    unfold runFields at h
    cases hpf : processField env req opts st f with
    | error e => rw [hpf] at h; simp at h
    | ok stx =>
      rw [hpf] at h
      exact ih stx st2 h (processField_required_mono env req opts st f stx hpf hst)

theorem runFields_keys (env : Env) (req : Req) (opts : ParseOptions) (q : String) :
    ∀ (l : List FormField) (st st2 : ParseState),
      runFields env req opts st l = Except.ok st2 →
      st2.formValues.lookup q ≠ none →
      st.formValues.lookup q ≠ none ∨
        ∃ g ∈ l, g.skipValue = false ∧ opts.skipRequiredCheck.contains g.name = false ∧
          q ∈ fieldKeys g := by
  intro l
  induction l with
  | nil => intro st st2 h hlq; unfold runFields at h; cases h; exact Or.inl hlq
  | cons f rest ih =>
    intro st st2 h hlq
    unfold runFields at h
    cases hpf : processField env req opts st f with
    | error e => rw [hpf] at h; simp at h
    | ok stx =>
      rw [hpf] at h
      rcases ih stx st2 h hlq with hx | ⟨g, hg, hgp⟩
      · rcases processField_keys env req opts st f stx q hpf hx with h0 | h0
        · exact Or.inl h0
        · exact Or.inr ⟨f, by simp, h0⟩
      · exact Or.inr ⟨g, by simp [hg], hgp⟩

theorem runFields_ok (env : Env) (req : Req) (opts : ParseOptions) :
    ∀ (l : List FormField) (st : ParseState),
      (∀ f ∈ l, fieldSafe req opts f) →
      ∃ st2, runFields env req opts st l = Except.ok st2 := by
  intro l
  induction l with
  | nil => intro st _; exact ⟨st, rfl⟩
  | cons f rest ih =>
    intro st hsafe
    obtain ⟨stx, hpf⟩ := processField_ok env req opts st f (hsafe f (by simp))
    obtain ⟨st2, h2⟩ := ih stx (fun g hg => hsafe g (by simp [hg]))
    refine ⟨st2, ?_⟩
    unfold runFields
    rw [hpf]
    exact h2

theorem runFields_required_at_member (env : Env) (req : Req) (opts : ParseOptions)
    (l1 : List FormField) (f : FormField) (l2 : List FormField)
    (st st2 : ParseState)
    (h : runFields env req opts st (l1 ++ f :: l2) = Except.ok st2)
    (hc : opts.skipRequiredCheck.contains f.name = false)
    (ht : truthy (req.body.lookup f.name) = false)
    (hr : f.required = true) :
    st2.hasRequiredFields = false := by
  obtain ⟨stm, h1, h2⟩ := runFields_append env req opts l1 (f :: l2) st st2 h
  unfold runFields at h2
  cases hpf : processField env req opts stm f with
  | error e => rw [hpf] at h2; simp at h2
  | ok stx =>
    rw [hpf] at h2
    exact runFields_required_mono env req opts l2 stx st2 h2
      (processField_required_set env req opts stm f stx hc ht hr hpf)

theorem runFields_lookup_at_member (env : Env) (req : Req) (opts : ParseOptions)
    (l1 : List FormField) (f : FormField) (l2 : List FormField)
    (st st2 : ParseState)
    (h : runFields env req opts st (l1 ++ f :: l2) = Except.ok st2) :
    ∃ stm stx, processField env req opts stm f = Except.ok stx ∧
      ∀ q, (∀ g ∈ l2, q ∉ fieldKeys g) →
        st2.formValues.lookup q = stx.formValues.lookup q := by
  obtain ⟨stm, h1, h2⟩ := runFields_append env req opts l1 (f :: l2) st st2 h
  unfold runFields at h2
  cases hpf : processField env req opts stm f with
  | error e => rw [hpf] at h2; simp at h2
  | ok stx =>
    rw [hpf] at h2
    exact ⟨stm, stx, hpf, fun q hafter =>
      runFields_preserve env req opts q l2 stx st2 h2 hafter⟩

theorem parseSubmission_ok_elim (env : Env) (req : Req) (opts : ParseOptions)
    (res : SubmissionResult) (fl : List (String × String))
    (hok : parseSubmission env req opts = Except.ok (res, fl)) :
    ∃ st, runFields env req opts (initState env req opts) (effectiveFormDef env opts) = Except.ok st ∧
      res.hasRequiredFields = st.hasRequiredFields ∧
      res.formValues = st.formValues ∧
      res.hasCorrectCaptcha =
        (if captchaEnabled env opts then some (processCaptchaAnswer env req).1 else none) := by
  unfold parseSubmission at hok
  cases hrf : runFields env req opts (initState env req opts) (effectiveFormDef env opts) with
  | error e => rw [hrf] at hok; simp at hok
  | ok st =>
    rw [hrf] at hok
    cases hok
    exact ⟨st, rfl, rfl, rfl, rfl⟩

/- Claim theorems about FormHandler.execute. -/

theorem execute_load_deleted (h : FormHandler) (spec : ActionSpec) (data : Resource)
    (hspec : getSpec h = some spec)
    (hm : methodEntryIsFunction spec h.method = true)
    (hchecks : spec.preFlightChecks.all (fun b => b) = true)
    (hld : spec.hasLoadData = true)
    (hout : h.loadOutcome = LoadOutcome.resolved data)
    (hdel : data._revDeleted = true) :
    execute h = Except.ok (checkEvents spec ++ [ExecEvent.loaderRun, ExecEvent.setStatus 404,
      ExecEvent.renderTemplate h.documentNotFoundTemplate h.documentNotFoundTitleKey h.id]) := by
  unfold execute loadPhase catchPhase
  rw [hspec]
  simp [hm, hchecks, hld, hout, hdel]

/-- C1 counterexample: with the edit action configured with titleKey
"edit thing title", a loader resolving to a soft-deleted resource renders
the 404 template with the handler documentNotFoundTitleKey
"page not found title" and not with the action configured titleKey, so the
404 context does not contain the action titleKey. -/
theorem execute_404_ignores_action_titleKey :
    execute handlerCex = Except.ok [ExecEvent.checkRun 0 true, ExecEvent.loaderRun,
      ExecEvent.setStatus 404, ExecEvent.renderTemplate "404" "page not found title" (some "42")]
    ∧ handlerCex.editSpec.titleKey = some "edit thing title"
    ∧ ExecEvent.renderTemplate "404" "edit thing title" (some "42") ∉
        [ExecEvent.checkRun 0 true, ExecEvent.loaderRun, ExecEvent.setStatus 404,
         ExecEvent.renderTemplate "404" "page not found title" (some "42")] := by
  refine ⟨rfl, rfl, ?_⟩
  decide

/-- C1 amended: when the action has a data loader and the loader resolves
to a resource whose _revDeleted flag is true, execute renders the 404
template with the handler documentNotFoundTitleKey and the handler
resource id, and the verb handler for the requested method is never
invoked. -/
theorem execute_deleted_renders_404 (h : FormHandler) (spec : ActionSpec) (data : Resource)
    (tr : List ExecEvent)
    (hspec : getSpec h = some spec)
    (hm : methodEntryIsFunction spec h.method = true)
    (hchecks : spec.preFlightChecks.all (fun b => b) = true)
    (hld : spec.hasLoadData = true)
    (hout : h.loadOutcome = LoadOutcome.resolved data)
    (hdel : data._revDeleted = true)
    (hok : execute h = Except.ok tr) :
    ExecEvent.renderTemplate h.documentNotFoundTemplate h.documentNotFoundTitleKey h.id ∈ tr
    ∧ ∀ d, ExecEvent.verbHandlerRun d ∉ tr := by
  rw [execute_load_deleted h spec data hspec hm hchecks hld hout hdel] at hok
  cases hok
  constructor
  · simp
  · intro d
    simp [checkEvents]

theorem execute_deleted_renders_404_witness :
    ExecEvent.renderTemplate "404" "page not found title" (some "42") ∈
      [ExecEvent.checkRun 0 true, ExecEvent.loaderRun, ExecEvent.setStatus 404,
       ExecEvent.renderTemplate "404" "page not found title" (some "42")]
    ∧ ExecEvent.verbHandlerRun none ∉
      [ExecEvent.checkRun 0 true, ExecEvent.loaderRun, ExecEvent.setStatus 404,
       ExecEvent.renderTemplate "404" "page not found title" (some "42")] :=
  match execute_deleted_renders_404 handlerCex specEditCex ⟨true, "r"⟩ _ rfl rfl rfl rfl rfl rfl rfl with
  | ⟨h1, h2⟩ => ⟨h1, h2 none⟩

/-- C3: if some pre-flight check of the recognized action returns false,
execute still runs every pre-flight check exactly once and in order, and
the trace holds nothing else: in particular neither the data loader nor
any verb handler is invoked. -/
theorem execute_failed_check_runs_all_checks (h : FormHandler) (spec : ActionSpec)
    (hspec : getSpec h = some spec)
    (hm : methodEntryIsFunction spec h.method = true)
    (hfail : false ∈ spec.preFlightChecks) :
    execute h = Except.ok (spec.preFlightChecks.enum.map fun p => ExecEvent.checkRun p.1 p.2)
    ∧ ExecEvent.loaderRun ∉ (spec.preFlightChecks.enum.map fun p => ExecEvent.checkRun p.1 p.2)
    ∧ ∀ d, ExecEvent.verbHandlerRun d ∉
        (spec.preFlightChecks.enum.map fun p => ExecEvent.checkRun p.1 p.2) := by
  have hall : spec.preFlightChecks.all (fun b => b) = false := by
    cases hb : spec.preFlightChecks.all (fun b => b)
    · rfl
    · exfalso
      have h1 := List.all_eq_true.mp hb false hfail
      simp at h1
  refine ⟨?_, by simp, fun d => by simp⟩
  unfold execute
  rw [hspec]
  simp [hm, hall, checkEvents]

theorem execute_failed_check_runs_all_checks_witness :
    execute handlerFailingCheck =
      Except.ok [ExecEvent.checkRun 0 true, ExecEvent.checkRun 1 false]
    ∧ ExecEvent.loaderRun ∉ [ExecEvent.checkRun 0 true, ExecEvent.checkRun 1 false]
    ∧ ExecEvent.verbHandlerRun none ∉ [ExecEvent.checkRun 0 true, ExecEvent.checkRun 1 false] :=
  match execute_failed_check_runs_all_checks handlerFailingCheck specFailingCheck rfl rfl
      (by decide) with
  | ⟨h1, h2, h3⟩ => ⟨h1, h2, h3 none⟩

/-- C5: an action string outside create, edit, delete, or a recognized
action whose requested method entry is not a function, makes execute throw
a configuration error; the error result carries no trace, so no pre-flight
check, data load or rendering happens. -/
theorem execute_config_errors (h : FormHandler) :
    (h.action ∉ ["create", "edit", "delete"] →
      execute h = Except.error
        { name := "Error", message := "Did not recognize form action: undefined" })
    ∧ (∀ spec, getSpec h = some spec → methodEntryIsFunction spec h.method = false →
        execute h = Except.error
          { name := "Error", message := "No defined handler for this method." }) := by
  constructor
  · intro hact
    simp only [List.mem_cons, List.mem_singleton, not_or] at hact
    unfold execute getSpec
    rw [if_neg hact.1, if_neg hact.2.1, if_neg hact.2.2.1]
  · intro spec hspec hm
    unfold execute
    rw [hspec]
    simp [hm]

theorem execute_config_errors_witness :
    execute handlerBadAction = Except.error
      { name := "Error", message := "Did not recognize form action: undefined" }
    ∧ execute handlerBadMethod = Except.error
      { name := "Error", message := "No defined handler for this method." } :=
  ⟨(execute_config_errors handlerBadAction).1 (by decide),
   (execute_config_errors handlerBadMethod).2 specEditCex rfl rfl⟩

/- Claim theorems about forms.parseSubmission and processCaptchaAnswer. -/

/-- C2 counterexample: with a schema holding one optional text field and a
body lacking it, parseSubmission throws a TypeError (reading trim of an
absent value) instead of reporting through flags and messages. -/
theorem parseSubmission_throws_on_absent_text_field :
    parseSubmission envW reqCsrfOnly optsTextOnly = Except.error trimOfUndefined := by
  rfl

/-- C2 amended: parseSubmission returns normally, reporting validation
failures only through the result flags and the queued flash messages,
provided every non-required, non-skipValue, non-exempted field of type
number, url, text or markdown in the effective schema has a present body
value. -/
theorem parseSubmission_no_throw (env : Env) (req : Req) (opts : ParseOptions)
    (hsafe : ∀ f ∈ effectiveFormDef env opts, fieldSafe req opts f) :
    ∃ r, parseSubmission env req opts = Except.ok r := by
  obtain ⟨st, hrf⟩ :=
    runFields_ok env req opts (effectiveFormDef env opts) (initState env req opts) hsafe
  unfold parseSubmission
  rw [hrf]
  exact ⟨_, rfl⟩

theorem parseSubmission_no_throw_witness :
    ∃ r, parseSubmission envW reqCsrfOnly optsEmpty = Except.ok r :=
  parseSubmission_no_throw envW reqCsrfOnly optsEmpty (by decide)

/-- C4 counterexample: a required field exempted through skipRequiredCheck
and absent from the body leaves hasRequiredFields at true: the presence
check is skipped entirely for exempted fields, not merely the value. -/
theorem parseSubmission_exempt_skips_required_check :
    parseSubmission envW reqCsrfOnly optsExempt =
      Except.ok ({ hasRequiredFields := true, hasUnknownFields := false,
                   hasCorrectCaptcha := none, formValues := [] }, []) := by
  rfl

/-- C4 amended: skipValue fields are presence-checked (a required skipValue
field that is not exempted and absent records hasRequiredFields = false)
and never written to formValues; exempted fields skip the required check
entirely and are never written either: every key present in formValues
comes from a field that is neither skipValue nor exempted. -/
theorem parseSubmission_skip_and_exempt_fields (env : Env) (req : Req) (opts : ParseOptions)
    (res : SubmissionResult) (fl : List (String × String))
    (hok : parseSubmission env req opts = Except.ok (res, fl)) :
    (∀ f ∈ effectiveFormDef env opts,
       f.skipValue = true → f.required = true →
       opts.skipRequiredCheck.contains f.name = false →
       truthy (req.body.lookup f.name) = false →
       res.hasRequiredFields = false)
    ∧ (∀ q v, res.formValues.lookup q = some v →
        ∃ g ∈ effectiveFormDef env opts,
          g.skipValue = false ∧ opts.skipRequiredCheck.contains g.name = false ∧
            q ∈ fieldKeys g) := by
  obtain ⟨st, hrf, hreq, hfv, hcc⟩ := parseSubmission_ok_elim env req opts res fl hok
  constructor
  · intro f hf hsv hr hc ht
    obtain ⟨l1, l2, hsplit⟩ := List.append_of_mem hf
    rw [hsplit] at hrf
    rw [hreq]
    exact runFields_required_at_member env req opts l1 f l2 _ st hrf hc ht hr
  · intro q v hq
    have hlq : st.formValues.lookup q ≠ none := by
      rw [← hfv, hq]
      simp
    rcases runFields_keys env req opts q (effectiveFormDef env opts) _ st hrf hlq with h0 | h0
    · simp [initState, List.lookup] at h0
    · exact h0

theorem parseSubmission_skip_and_exempt_fields_witness :
    ({ hasRequiredFields := false, hasUnknownFields := false,
       hasCorrectCaptcha := none, formValues := [] } : SubmissionResult).hasRequiredFields
      = false :=
  (parseSubmission_skip_and_exempt_fields envW reqEmpty optsEmpty
      { hasRequiredFields := false, hasUnknownFields := false,
        hasCorrectCaptcha := none, formValues := [] }
      [("pageErrors", "need _csrf")] rfl).1
    csrfField (by decide) rfl rfl (by decide) rfl

/-- C7: a markdown field with a present value and flat unset stores under
its key a nested object whose text entry at the active language is the
escaped trimmed input and whose html entry is the rendered trimmed input;
with flat set, the escaped text goes directly under the field key and the
rendered form under its htmlKey. -/
theorem parseSubmission_markdown_storage (env : Env) (req : Req) (opts : ParseOptions)
    (l1 : List FormField) (f : FormField) (l2 : List FormField) (s : String)
    (res : SubmissionResult) (fl : List (String × String))
    (hdef : effectiveFormDef env opts = l1 ++ f :: l2)
    (heq : f.type = some "markdown")
    (hsv : f.skipValue = false)
    (hc : opts.skipRequiredCheck.contains f.name = false)
    (hbv : req.body.lookup f.name = some s) (hs : s ≠ "")
    (hafter : ∀ g ∈ l2, effKey f ∉ fieldKeys g ∧ htmlKeyEff f ∉ fieldKeys g)
    (hok : parseSubmission env req opts = Except.ok (res, fl)) :
    (f.flat = false → res.formValues.lookup (effKey f) =
       some (FormValue.mdNested opts.language (env.escapeHTML (jsTrim s))
         (env.mdRender (jsTrim s) req.locale)))
    ∧ (f.flat = true → effKey f ≠ htmlKeyEff f →
         res.formValues.lookup (effKey f) =
           some (FormValue.langMap opts.language (env.escapeHTML (jsTrim s)))
         ∧ res.formValues.lookup (htmlKeyEff f) =
           some (FormValue.langMap opts.language (env.mdRender (jsTrim s) req.locale))) := by
  obtain ⟨st, hrf, hreq, hfv, hcc⟩ := parseSubmission_ok_elim env req opts res fl hok
  rw [hdef] at hrf
  obtain ⟨stm, stx, hpf, hpres⟩ := runFields_lookup_at_member env req opts l1 f l2 _ st hrf
  have hmd := processField_markdown_write env req opts stm f stx s heq hsv hc hbv hs hpf
  constructor
  · intro hfl
    rw [hfv, hpres (effKey f) (fun g hg => (hafter g hg).1)]
    exact hmd.1 hfl
  · intro hfl hne
    refine ⟨?_, ?_⟩
    · rw [hfv, hpres (effKey f) (fun g hg => (hafter g hg).1)]
      exact (hmd.2 hfl).2 hne
    · rw [hfv, hpres (htmlKeyEff f) (fun g hg => (hafter g hg).2)]
      exact (hmd.2 hfl).1

theorem parseSubmission_markdown_storage_witness :
    ({ hasRequiredFields := true, hasUnknownFields := false, hasCorrectCaptcha := none,
       formValues := [("m", FormValue.mdNested "en" "Ehi" "Rhi")] } :
        SubmissionResult).formValues.lookup "m" =
      some (FormValue.mdNested "en" "Ehi" "Rhi") :=
  (parseSubmission_markdown_storage envW reqMarkdown optsMarkdown [] mField [csrfField] " hi "
      { hasRequiredFields := true, hasUnknownFields := false, hasCorrectCaptcha := none,
        formValues := [("m", FormValue.mdNested "en" "Ehi" "Rhi")] }
      [] rfl rfl rfl rfl rfl (by decide) (by decide) (by decide)).1 rfl

/-- C9: a boolean field that is not required, not skipValue and not
exempted, and whose name is absent from the body, is still written:
formValues receives the field key with value false. -/
theorem parseSubmission_boolean_absent_coerced (env : Env) (req : Req) (opts : ParseOptions)
    (l1 : List FormField) (f : FormField) (l2 : List FormField)
    (res : SubmissionResult) (fl : List (String × String))
    (hdef : effectiveFormDef env opts = l1 ++ f :: l2)
    (heq : f.type = some "boolean")
    (hsv : f.skipValue = false)
    (hc : opts.skipRequiredCheck.contains f.name = false)
    (hr : f.required = false)
    (hbv : req.body.lookup f.name = none)
    (hafter : ∀ g ∈ l2, effKey f ∉ fieldKeys g)
    (hok : parseSubmission env req opts = Except.ok (res, fl)) :
    res.formValues.lookup (effKey f) = some (FormValue.bool false) := by
  obtain ⟨st, hrf, hreq, hfv, hcc⟩ := parseSubmission_ok_elim env req opts res fl hok
  rw [hdef] at hrf
  obtain ⟨stm, stx, hpf, hpres⟩ := runFields_lookup_at_member env req opts l1 f l2 _ st hrf
  rw [hfv, hpres (effKey f) hafter]
  exact processField_boolean_absent env req opts stm f stx heq hsv hc hr hbv hpf

theorem parseSubmission_boolean_absent_coerced_witness :
    ({ hasRequiredFields := true, hasUnknownFields := false, hasCorrectCaptcha := none,
       formValues := [("b", FormValue.bool false)] } :
        SubmissionResult).formValues.lookup "b" = some (FormValue.bool false) :=
  parseSubmission_boolean_absent_coerced envW reqCsrfOnly optsBoolean [] bField [csrfField]
    { hasRequiredFields := true, hasUnknownFields := false, hasCorrectCaptcha := none,
      formValues := [("b", FormValue.bool false)] }
    [] rfl rfl rfl rfl rfl rfl (by decide) rfl

/-- C10: the returned hasCorrectCaptcha is null exactly when CAPTCHA is not
enabled for the form key, and is the boolean verdict of
processCaptchaAnswer whenever it is enabled. -/
theorem parseSubmission_hasCorrectCaptcha (env : Env) (req : Req) (opts : ParseOptions)
    (res : SubmissionResult) (fl : List (String × String))
    (hok : parseSubmission env req opts = Except.ok (res, fl)) :
    (res.hasCorrectCaptcha = none ↔ captchaEnabled env opts = false)
    ∧ (captchaEnabled env opts = true →
        res.hasCorrectCaptcha = some (processCaptchaAnswer env req).1) := by
  obtain ⟨st, hrf, hreq, hfv, hcc⟩ := parseSubmission_ok_elim env req opts res fl hok
  rw [hcc]
  cases hen : captchaEnabled env opts <;> simp

theorem parseSubmission_hasCorrectCaptcha_witness :
    (({ hasRequiredFields := true, hasUnknownFields := false, hasCorrectCaptcha := some false,
        formValues := [("captcha-id", FormValue.raw (some "0")),
                       ("captcha-answer", FormValue.raw (some "x"))] } :
         SubmissionResult).hasCorrectCaptcha = none
       ↔ captchaEnabled envW optsCaptcha = false)
    ∧ (captchaEnabled envW optsCaptcha = true →
        ({ hasRequiredFields := true, hasUnknownFields := false, hasCorrectCaptcha := some false,
           formValues := [("captcha-id", FormValue.raw (some "0")),
                          ("captcha-answer", FormValue.raw (some "x"))] } :
            SubmissionResult).hasCorrectCaptcha = some (processCaptchaAnswer envW reqCaptcha).1) :=
  parseSubmission_hasCorrectCaptcha envW reqCaptcha optsCaptcha
    { hasRequiredFields := true, hasUnknownFields := false, hasCorrectCaptcha := some false,
      formValues := [("captcha-id", FormValue.raw (some "0")),
                     ("captcha-answer", FormValue.raw (some "x"))] }
    [("pageErrors", "incorrect captcha answer")] (by decide)

/-- C6: with CAPTCHA enabled for the form key, processCaptchaAnswer returns
true exactly when a nonempty captcha-answer was submitted, the submitted
captcha-id addresses a configured captcha, and the trimmed submitted
answer equals the translated configured answer case-insensitively; a
missing answer, an unknown captcha id, or any mismatch gives false. -/
theorem processCaptchaAnswer_iff (env : Env) (req : Req) (formKey : String)
    (henabled : env.captchaForms.contains formKey = true) :
    (processCaptchaAnswer env req).1 = true ↔
      ∃ a, req.body.lookup "captcha-answer" = some a ∧ a ≠ "" ∧
        ∃ c, jsIndex env.captchas (req.body.lookup "captcha-id") = some c ∧
          jsToUpper (jsTrim a) = jsToUpper (env.translate c.answerKey) := by
  unfold processCaptchaAnswer
  cases hans : req.body.lookup "captcha-answer" with
  | none => simp [truthy]
  | some a =>
    by_cases ha : a = ""
    · subst ha
      simp [truthy]
    · have ht : truthy (some a) = true := by simp [truthy, ha]
      cases hid : jsIndex env.captchas (req.body.lookup "captcha-id") with
      | none => simp [ht, hid, ha]
      | some c =>
        by_cases hcmp : jsToUpper (jsTrim a) = jsToUpper (env.translate c.answerKey)
        · simp [ht, hid, ha, hcmp]
        · simp [ht, hid, ha, hcmp]

theorem processCaptchaAnswer_iff_witness :
    (processCaptchaAnswer envW reqCaptchaRight).1 = true ↔
      ∃ a, reqCaptchaRight.body.lookup "captcha-answer" = some a ∧ a ≠ "" ∧
        ∃ c, jsIndex envW.captchas (reqCaptchaRight.body.lookup "captcha-id") = some c ∧
          jsToUpper (jsTrim a) = jsToUpper (envW.translate c.answerKey) :=
  processCaptchaAnswer_iff envW reqCaptchaRight "review" rfl

/-- C8: the internal schema parseSubmission iterates over is the caller
formDef unchanged at the front, with the implicit CSRF field, and when
CAPTCHA is enabled the two captcha fields, appended after it on the copy;
nothing is inserted into or removed from the caller portion. -/
theorem effectiveFormDef_appends_only (env : Env) (opts : ParseOptions) :
    (effectiveFormDef env opts).take opts.formDef.length = opts.formDef
    ∧ (effectiveFormDef env opts).drop opts.formDef.length =
        csrfField ::
          (if captchaEnabled env opts then [captchaIdField, captchaAnswerField] else []) := by
  unfold effectiveFormDef
  cases hen : captchaEnabled env opts <;>
    simp [List.append_assoc, List.take_left, List.drop_left]
